import Mathlib

/-!
Verification of the team-cleanup-script repository: a pair of Node.js
scripts (`ready-experiments.js` and `exp-by-team.js`) that fetch
experiment records, filter them by status or by team id, resolve owner
information across several possible field names, and serialize a CSV
report.

The scripts operate on loosely typed JSON documents, so the embedding
models a JSON-like value universe `JSValue` together with the JavaScript
semantics the scripts rely on: truthiness, the `||` operator, property
access (returning `undefined` for missing keys and for non-object
receivers, matching `obj.k` and the optional-chaining form `obj?.k`
used by the scripts), `String(...)` coercion, `toLowerCase`, and
`parseInt` with `NaN` modelled as `Option.none` (and `NaN === NaN`
being false modelled by strict option matching).

Records are treated as JSON documents; property access on a nullish
receiver (which would throw in JavaScript) is modelled as `undefined`,
which is only exercised where the scripts themselves guard with `?.`.
-/

inductive JSValue where
  | undef : JSValue
  | null : JSValue
  | bool : Bool → JSValue
  | num : Int → JSValue
  | str : String → JSValue
  | arr : List JSValue → JSValue
  | obj : List (String × JSValue) → JSValue

/-- JavaScript truthiness for the modelled values.  `NaN` and floats are
not representable (`num` carries an `Int`), which the scripts never
produce as field values. -/
def truthy : JSValue → Bool
  | .undef => false
  | .null => false
  | .bool b => b
  | .num n => n != 0
  | .str s => s != ""
  | .arr _ => true
  | .obj _ => true

/-- The JavaScript `a || b` operator: `a` when truthy, else `b`. -/
def jsOr (a b : JSValue) : JSValue :=
  if truthy a then a else b

/-- Property access `v.k` for non-nullish `v`, and `v?.k` for every `v`:
`undefined` when the receiver is not an object or lacks the key; the
first binding wins when a key is repeated. -/
def getField (v : JSValue) (k : String) : JSValue :=
  match v with
  | .obj fs =>
    match fs.lookup k with
    | some w => w
    | none => .undef
  | _ => .undef

mutual
/-- `String(v)` coercion.  The flag records whether the value is being
rendered as an array element, where `Array.prototype.join` renders
`null` and `undefined` as the empty string. -/
def jsToStringAux : Bool → JSValue → String
  | inArr, .undef => if inArr then "" else "undefined"
  | inArr, .null => if inArr then "" else "null"
  | _, .bool b => if b then "true" else "false"
  | _, .num n => toString n
  | _, .str s => s
  | _, .arr xs => jsJoinComma xs
  | _, .obj _ => "[object Object]"

/-- `Array.prototype.toString`: elements joined with commas. -/
def jsJoinComma : List JSValue → String
  | [] => ""
  | [v] => jsToStringAux true v
  | v :: w :: ws => jsToStringAux true v ++ "," ++ jsJoinComma (w :: ws)
end

/-- `String(v)` at top level. -/
def jsToString (v : JSValue) : String := jsToStringAux false v

/-- ASCII model of `String.prototype.toLowerCase` (the script only
compares against the ASCII constants `ready` and `wrap_up`). -/
def lowerStr (s : String) : String := ⟨s.data.map Char.toLower⟩

/-- `String.prototype.includes` specialised to a single character,
which is the only form the scripts use. -/
def strContains (s : String) (c : Char) : Bool := s.data.contains c

/-- Whitespace skipped by `parseInt`. -/
def isJsSpace (c : Char) : Bool :=
  c = ' ' || c = '\t' || c = '\n' || c = '\r' || c = '\x0b' || c = '\x0c'

/-- Value of a nonempty run of decimal digits. -/
def digitsVal (cs : List Char) : Int :=
  cs.foldl (fun a c => a * 10 + ((c.toNat : Int) - 48)) 0

/-- Decimal model of JavaScript `parseInt` on strings: skip leading
whitespace, read an optional sign and a longest run of decimal digits;
no digits means `NaN`, modelled as `none`.  (The hexadecimal `0x` form
is not modelled; no claim depends on it.) -/
def parseIntStr (s : String) : Option Int :=
  let cs := s.data.dropWhile isJsSpace
  let signed : Int × List Char :=
    match cs with
    | '-' :: rest => (-1, rest)
    | '+' :: rest => (1, rest)
    | _ => (1, cs)
  let digits := signed.2.takeWhile Char.isDigit
  if digits.isEmpty then none else some (signed.1 * digitsVal digits)

/-- `parseInt(v)` for an arbitrary value: `parseInt` first coerces its
argument to a string. -/
def jsParseInt (v : JSValue) : Option Int := parseIntStr (jsToString v)

example : jsParseInt (JSValue.str "123") = some 123 := by decide
example : jsParseInt (JSValue.str " -42abc") = some (-42) := by decide
example : jsParseInt JSValue.undef = none := by decide
example : jsParseInt (JSValue.num 0) = some 0 := by decide
example : jsToString (JSValue.arr []) = "" := by decide
example : jsToString (JSValue.arr [JSValue.num 1, JSValue.null]) = "1," := by decide

/-! ## CSV escaping

`escapeCsv` from `ready-experiments.js` lines 89-95 and
`exp-by-team.js` (src/unnamed/part_001) lines 90-96; the two copies are
character-for-character identical:

```js
const escapeCsv = (value) => {
  if (typeof value !== 'string') value = String(value);
  if (value.includes(',') || value.includes('"') || value.includes('\n')) {
    return `"${value.replace(/"/g, '""')}"`;
  }
  return value;
};
```
-/

/-- `value.replace(/"/g, '""')`: double every double-quote character. -/
def escQuote : List Char → List Char
  | [] => []
  | c :: cs => if c = '"' then '"' :: '"' :: escQuote cs else c :: escQuote cs

/-- String-level wrapper for `escQuote`. -/
def doubleQuotes (s : String) : String := ⟨escQuote s.data⟩

/-- The quoting trigger: the value contains a comma, a double quote or a
newline. -/
def needsQuoting (s : String) : Bool :=
  strContains s ',' || strContains s '"' || strContains s '\n'

/-- `escapeCsv` on a value already coerced to a string. -/
def escapeCsv (s : String) : String :=
  if needsQuoting s then "\"" ++ doubleQuotes s ++ "\"" else s

/-- `escapeCsv` on an arbitrary value: non-strings are passed through
`String(value)` first. -/
def escapeCsvVal (v : JSValue) : String := escapeCsv (jsToString v)

/-! ## Status filter (`ready-experiments.js` lines 51-74) -/

/-- The allow-list `['ready', 'wrap_up']`. -/
def targetStatuses : List String := ["ready", "wrap_up"]

/-- The status fallback chain from `filterByTargetStatuses`:
`experiment.status || experiment.state || experiment.experiment_status
|| experiment.metadata?.status || experiment.metadata?.state`. -/
def resolveStatus (e : JSValue) : JSValue :=
  jsOr (getField e "status")
    (jsOr (getField e "state")
      (jsOr (getField e "experiment_status")
        (jsOr (getField (getField e "metadata") "status")
          (getField (getField e "metadata") "state"))))

/-- The predicate of the status filter: falsy resolved status drops the
record, otherwise the lowercased string form must be in the allow-list. -/
def statusKeep (e : JSValue) : Bool :=
  let status := resolveStatus e
  if !truthy status then false
  else targetStatuses.contains (lowerStr (jsToString status))

/-- `filterByTargetStatuses`: non-array payloads yield `[]` (with a
console warning, modelled at the run level); arrays are filtered by
`statusKeep`. -/
def filterByTargetStatuses (experiments : JSValue) : List JSValue :=
  match experiments with
  | .arr xs => xs.filter statusKeep
  | _ => []

/-! ## Team filter (`exp-by-team.js`, src/unnamed/part_001, lines 57-75) -/

/-- The team-id fallback chain from `filterByTeam`:
`experiment.team_id || experiment.teamId || experiment.owner_team_id ||
experiment.ownerTeamId || experiment.metadata?.team_id ||
experiment.metadata?.teamId`. -/
def resolveTeamId (e : JSValue) : JSValue :=
  jsOr (getField e "team_id")
    (jsOr (getField e "teamId")
      (jsOr (getField e "owner_team_id")
        (jsOr (getField e "ownerTeamId")
          (jsOr (getField (getField e "metadata") "team_id")
            (getField (getField e "metadata") "teamId")))))

/-- `parseInt(team_id) === parseInt(teamId)`: strict equality of the two
coercions, false whenever either side is `NaN` (including both). -/
def teamKeep (e teamId : JSValue) : Bool :=
  match jsParseInt (resolveTeamId e), jsParseInt teamId with
  | some a, some b => a == b
  | _, _ => false

/-- `filterByTeam`: non-array payloads yield `[]` (with a console
warning); arrays are filtered by `teamKeep` against the target. -/
def filterByTeam (experiments : JSValue) (teamId : JSValue) : List JSValue :=
  match experiments with
  | .arr xs => xs.filter (fun e => teamKeep e teamId)
  | _ => []

example : statusKeep (JSValue.obj [("state", JSValue.str "Ready")]) = true := by decide
example : statusKeep (JSValue.obj [("status", JSValue.str "READY_SOON")]) = false := by decide
example : teamKeep (JSValue.obj [("team_id", JSValue.str "123")]) (JSValue.str "123") = true := by
  decide
example : teamKeep (JSValue.obj []) (JSValue.str "123") = false := by decide

/-! ## Owner resolution

The owner-resolution logic appears at three kinds of sites: the CSV row
loop of `displayExperimentOwners` (exp-by-team.js, src/unnamed/part_001
lines 110-126), the CSV row loop of `generateReadyExperimentsCSV`
(ready-experiments.js lines 116-132), and the unique-owner-email
summary block in each file.  Each site repeats the same chains; they
are transcribed separately here so that their extensional agreement is
a theorem rather than an artifact of sharing one definition.

`typeof owner === 'object' && owner !== null` holds for plain objects
and for arrays and fails for strings, numbers, booleans, `null` and
`undefined`. -/

/-- `typeof v === 'object' && v !== null`. -/
def isObjectType : JSValue → Bool
  | .arr _ => true
  | .obj _ => true
  | _ => false

/-- `owner.split('@')[0]`: the part of the string before the first `@`
(the whole string when there is no `@`). -/
def beforeAt (s : String) : String := ⟨s.data.takeWhile (fun c => c ≠ '@')⟩

/-- exp-by-team.js: `experiment.owner || experiment.created_by ||
experiment.createdBy || experiment.author || {}`. -/
def teamOwnerSource (e : JSValue) : JSValue :=
  jsOr (getField e "owner")
    (jsOr (getField e "created_by")
      (jsOr (getField e "createdBy")
        (jsOr (getField e "author") (.obj []))))

/-- exp-by-team.js: `owner.name || owner.full_name || owner.displayName
|| ''`. -/
def teamOwnerNameChain (owner : JSValue) : JSValue :=
  jsOr (getField owner "name")
    (jsOr (getField owner "full_name")
      (jsOr (getField owner "displayName") (.str "")))

/-- exp-by-team.js: `owner.email || owner.email_address || ''`. -/
def teamOwnerEmailChain (owner : JSValue) : JSValue :=
  jsOr (getField owner "email") (jsOr (getField owner "email_address") (.str ""))

/-- exp-by-team.js rows: the `(ownerName, ownerEmail)` pair produced
from an owner source, viewed through the `String(...)` coercion that
`escapeCsv` applies before the values reach the CSV. -/
def teamOwnerBranch (owner : JSValue) : String × String :=
  if isObjectType owner then
    (jsToString (teamOwnerNameChain owner), jsToString (teamOwnerEmailChain owner))
  else
    match owner with
    | .str s => if strContains s '@' then (beforeAt s, s) else (s, "")
    | _ => ("", "")

/-- exp-by-team.js rows: owner name and email of a record. -/
def teamOwnerPair (e : JSValue) : String × String :=
  teamOwnerBranch (teamOwnerSource e)

/-- ready-experiments.js: `experiment.owner || experiment.created_by ||
experiment.createdBy || experiment.author || {}`. -/
def statusOwnerSource (e : JSValue) : JSValue :=
  jsOr (getField e "owner")
    (jsOr (getField e "created_by")
      (jsOr (getField e "createdBy")
        (jsOr (getField e "author") (.obj []))))

/-- ready-experiments.js: `owner.name || owner.full_name ||
owner.displayName || ''`. -/
def statusOwnerNameChain (owner : JSValue) : JSValue :=
  jsOr (getField owner "name")
    (jsOr (getField owner "full_name")
      (jsOr (getField owner "displayName") (.str "")))

/-- ready-experiments.js: `owner.email || owner.email_address || ''`. -/
def statusOwnerEmailChain (owner : JSValue) : JSValue :=
  jsOr (getField owner "email") (jsOr (getField owner "email_address") (.str ""))

/-- ready-experiments.js rows: the `(ownerName, ownerEmail)` pair
produced from an owner source. -/
def statusOwnerBranch (owner : JSValue) : String × String :=
  if isObjectType owner then
    (jsToString (statusOwnerNameChain owner), jsToString (statusOwnerEmailChain owner))
  else
    match owner with
    | .str s => if strContains s '@' then (beforeAt s, s) else (s, "")
    | _ => ("", "")

/-- ready-experiments.js rows: owner name and email of a record. -/
def statusOwnerPair (e : JSValue) : String × String :=
  statusOwnerBranch (statusOwnerSource e)

/-- exp-by-team.js summary block: the value each record contributes to
the unique-owner-email set before the `email !== ''` filter:

```js
const owner = exp.owner || exp.created_by || exp.createdBy || exp.author || {};
if (typeof owner === 'object' && owner !== null) {
  return owner.email || owner.email_address || '';
} else if (typeof owner === 'string' && owner.includes('@')) {
  return owner;
}
return '';
``` -/
def teamSummaryEmail (e : JSValue) : JSValue :=
  let owner :=
    jsOr (getField e "owner")
      (jsOr (getField e "created_by")
        (jsOr (getField e "createdBy")
          (jsOr (getField e "author") (.obj []))))
  if isObjectType owner then
    jsOr (getField owner "email") (jsOr (getField owner "email_address") (.str ""))
  else
    match owner with
    | .str s => if strContains s '@' then .str s else .str ""
    | _ => .str ""

/-- ready-experiments.js summary block, identical in the source to the
exp-by-team.js one. -/
def statusSummaryEmail (e : JSValue) : JSValue :=
  let owner :=
    jsOr (getField e "owner")
      (jsOr (getField e "created_by")
        (jsOr (getField e "createdBy")
          (jsOr (getField e "author") (.obj []))))
  if isObjectType owner then
    jsOr (getField owner "email") (jsOr (getField owner "email_address") (.str ""))
  else
    match owner with
    | .str s => if strContains s '@' then .str s else .str ""
    | _ => .str ""

/-! ## Row fields and the CSV serializer (ready-experiments.js lines 80-152) -/

/-- `experiment.name || experiment.title || 'Unnamed Experiment'`. -/
def resolveExperimentName (e : JSValue) : JSValue :=
  jsOr (getField e "name") (jsOr (getField e "title") (.str "Unnamed Experiment"))

/-- `experiment.id || experiment.experiment_id || ''`. -/
def resolveExperimentId (e : JSValue) : JSValue :=
  jsOr (getField e "id") (jsOr (getField e "experiment_id") (.str ""))

/-- The status column of the ready-experiments CSV: the five-location
chain with a final `|| ''` default. -/
def experimentStatusField (e : JSValue) : JSValue :=
  jsOr (getField e "status")
    (jsOr (getField e "state")
      (jsOr (getField e "experiment_status")
        (jsOr (getField (getField e "metadata") "status")
          (jsOr (getField (getField e "metadata") "state") (.str "")))))

/-- The `experimentId` column of a NormalizedRow as it reaches the CSV:
the resolved value after `String(...)` coercion. -/
def rowExperimentId (e : JSValue) : String := jsToString (resolveExperimentId e)

/-- `experimentId ? 'https://eppo.cloud/experiments/' + experimentId : ''`
(template-literal interpolation stringifies the id). -/
def rowExperimentUrl (e : JSValue) : String :=
  if truthy (resolveExperimentId e) then
    "https://eppo.cloud/experiments/" ++ jsToString (resolveExperimentId e)
  else ""

/-- Header row of the ready-experiments CSV. -/
def statusHeader : String :=
  "owner,owner_email,experiment_name,experiment_id,experiment_status,experiment_link"

/-- One data row of the ready-experiments CSV. -/
def statusCsvRow (e : JSValue) : String :=
  escapeCsv (statusOwnerPair e).1 ++ "," ++
  escapeCsv (statusOwnerPair e).2 ++ "," ++
  escapeCsvVal (resolveExperimentName e) ++ "," ++
  escapeCsvVal (resolveExperimentId e) ++ "," ++
  escapeCsvVal (experimentStatusField e) ++ "," ++
  escapeCsv (rowExperimentUrl e)

/-- `generateReadyExperimentsCSV` restricted to its file output: an
empty filter result returns early and writes nothing (`none`);
otherwise the header and one row per record are joined with
line feeds. -/
def generateReadyExperimentsCSV (exps : List JSValue) : Option String :=
  if exps.length = 0 then none
  else some (String.intercalate "\n" (statusHeader :: exps.map statusCsvRow))

/-- `Array.isArray`. -/
def isArrayValue : JSValue → Bool
  | .arr _ => true
  | _ => false

/-- Observable outcome of one `run()` of ready-experiments.js after a
successful fetch: whether the non-array warning fired, the CSV file
content if one was written, and the process exit code.  The modelled
segment after a successful fetch contains no `throw`, so the `catch`
that would exit with code 1 is never reached and the exit code is 0. -/
structure RunOutcome where
  warnedNotArray : Bool
  csvFile : Option String
  exitCode : Nat
deriving DecidableEq

/-- `run()` of ready-experiments.js from a successfully fetched payload
onward: filter, then serialize. -/
def runStatusReport (payload : JSValue) : RunOutcome :=
  ⟨!isArrayValue payload,
   generateReadyExperimentsCSV (filterByTargetStatuses payload),
   0⟩

example : teamOwnerPair (JSValue.obj [("owner", JSValue.str "bob@x.com")]) = ("bob", "bob@x.com") := by
  decide
example :
    statusOwnerPair
        (JSValue.obj [("owner",
          JSValue.obj [("name", JSValue.str "Jane Smith"), ("email", JSValue.str "jane@x.com")])]) =
      ("Jane Smith", "jane@x.com") := by decide
example : statusOwnerPair (JSValue.obj [("owner", JSValue.str "Bob")]) = ("Bob", "") := by decide
example : rowExperimentUrl (JSValue.obj [("id", JSValue.str "exp_456")]) =
    "https://eppo.cloud/experiments/exp_456" := by decide

/-! ## Spec-side ordered lookup (for claim C5)

The design notes describe the multi-field extraction as returning "the
first defined, non-null value" among the candidates.  `specFirstDefined`
follows those words; `firstTruthyD` is the semantics the `||` chains in
the code actually implement (first truthy candidate, the last candidate
when all are falsy). -/

/-- Modelled from the spec: the ordered lookup of the design notes,
returning the first candidate that is defined and non-null. -/
def specFirstDefined : List JSValue → JSValue
  | [] => .undef
  | v :: vs =>
    match v with
    | .undef => specFirstDefined vs
    | .null => specFirstDefined vs
    | w => w

/-- Semantics of a JavaScript `||` chain over a nonempty candidate
list: the first truthy candidate, or the final candidate when every
candidate is falsy. -/
def firstTruthyD : List JSValue → JSValue
  | [] => .undef
  | [v] => v
  | v :: w :: ws => if truthy v then v else firstTruthyD (w :: ws)

/-- The six candidate locations of the team-id extraction, in source
order. -/
def teamIdCandidates (e : JSValue) : List JSValue :=
  [getField e "team_id", getField e "teamId", getField e "owner_team_id",
   getField e "ownerTeamId", getField (getField e "metadata") "team_id",
   getField (getField e "metadata") "teamId"]

/-- The five candidate locations of the status extraction, in source
order. -/
def statusCandidates (e : JSValue) : List JSValue :=
  [getField e "status", getField e "state", getField e "experiment_status",
   getField (getField e "metadata") "status", getField (getField e "metadata") "state"]

/-- The four candidate locations of the owner extraction, in source
order, followed by the `{}` default of the chain. -/
def ownerCandidates (e : JSValue) : List JSValue :=
  [getField e "owner", getField e "created_by", getField e "createdBy",
   getField e "author", .obj []]

/-! ## CSV un-escaping (for claim C10)

The inverse direction follows the CSV convention of the serializer as
the claim words it: a result wrapped in double quotes is stripped of
them and every doubled internal double quote is halved; anything else
is taken verbatim. -/

/-- Halve doubled double quotes. -/
def unescQuote : List Char → List Char
  | [] => []
  | [c] => [c]
  | c :: d :: cs =>
    if c = '"' && d = '"' then '"' :: unescQuote cs
    else c :: unescQuote (d :: cs)

/-- Modelled from the claim: un-escape one CSV field under the
serializer's conventions. -/
def unescapeCsv (s : String) : String :=
  if 2 ≤ s.data.length ∧ s.data.head? = some '"' ∧ s.data.getLast? = some '"' then
    ⟨unescQuote ((s.data.drop 1).dropLast)⟩
  else s

example : unescapeCsv (escapeCsv "Say \"hi\"") = "Say \"hi\"" := by decide
example : unescapeCsv (escapeCsv "a,b\nc") = "a,b\nc" := by decide
example : unescapeCsv (escapeCsv "plain") = "plain" := by decide

/-! ## Helper lemmas -/

theorem escQuote_length (l : List Char) : l.length ≤ (escQuote l).length := by
  induction l with
  | nil => simp [escQuote]
  | cons c cs ih =>
    simp only [escQuote]
    split <;> simp <;> omega

theorem unescQuote_cons_ne (c : Char) (rest : List Char) (h : c ≠ '"') :
    unescQuote (c :: rest) = c :: unescQuote rest := by
  cases rest with
  | nil => simp [unescQuote]
  | cons d ds => simp [unescQuote, h]

theorem unescQuote_escQuote (l : List Char) : unescQuote (escQuote l) = l := by
  induction l with
  | nil => simp [escQuote, unescQuote]
  | cons c cs ih =>
    by_cases h : c = '"'
    · subst h
      simp only [escQuote, if_pos rfl]
      simp [unescQuote, ih]
    · simp only [escQuote, if_neg h]
      rw [unescQuote_cons_ne c _ h, ih]

theorem escapeCsv_eq_self_iff (s : String) : escapeCsv s = s ↔ needsQuoting s = false := by
  constructor
  · intro h
    cases hq : needsQuoting s
    · rfl
    · exfalso
      rw [escapeCsv, hq, if_pos rfl] at h
      have hlen := congrArg String.length h
      rw [String.length_append, String.length_append] at hlen
      have e1 : ("\"" : String).length = 1 := rfl
      rw [e1] at hlen
      have e2 : (doubleQuotes s).length = (escQuote s.data).length := rfl
      rw [e2] at hlen
      have e3 : s.length = s.data.length := rfl
      rw [e3] at hlen
      have hge := escQuote_length s.data
      omega
  · intro h
    simp [escapeCsv, h]

theorem unescapeCsv_wrapped (l : List Char) :
    unescapeCsv ⟨'"' :: (l ++ ['"'])⟩ = ⟨unescQuote l⟩ := by
  have hlast : ('"' :: (l ++ ['"'])).getLast? = some '"' := by
    rw [← List.cons_append]
    exact List.getLast?_concat _
  have hcond : 2 ≤ ('"' :: (l ++ ['"'])).length ∧
      ('"' :: (l ++ ['"'])).head? = some '"' ∧
      ('"' :: (l ++ ['"'])).getLast? = some '"' := ⟨by simp, by simp, hlast⟩
  unfold unescapeCsv
  rw [if_pos hcond]
  congr 1
  simp

/-! ## Claim theorems -/

/-- C1: for every field value, `escapeCsv` quotes the value (wraps it in
double quotes with every internal double quote doubled) iff the
stringified value contains a comma, a double quote, or a newline, and
otherwise returns the stringified value verbatim; non-string values are
stringified before the check.  The last two conjuncts instantiate the
two spec examples of the quoting rule. -/
theorem escapeCsv_quotes_iff (v : JSValue) :
    escapeCsvVal v =
      (if strContains (jsToString v) ',' || strContains (jsToString v) '"'
          || strContains (jsToString v) '\n' then
        "\"" ++ doubleQuotes (jsToString v) ++ "\""
      else jsToString v)
    ∧ (escapeCsvVal v = jsToString v ↔
        (strContains (jsToString v) ',' || strContains (jsToString v) '"'
          || strContains (jsToString v) '\n') = false)
    ∧ escapeCsv "a,b" = "\"a,b\""
    ∧ escapeCsv "Say \"hi\"" = "\"Say \"\"hi\"\"\"" := by
  refine ⟨rfl, ?_, by decide, by decide⟩
  exact escapeCsv_eq_self_iff (jsToString v)

/-- C10: the CSV escaping is lossless: un-escaping the output of
`escapeCsv` under the serializer's conventions (strip a surrounding
pair of double quotes and halve each doubled internal double quote,
otherwise take the field verbatim) recovers the original string for
every input; injectivity of `escapeCsv` follows since it has a left
inverse. -/
theorem csv_escape_roundtrip (s : String) : unescapeCsv (escapeCsv s) = s := by
  by_cases hq : needsQuoting s = true
  · rw [escapeCsv, if_pos hq]
    have hre : ("\"" ++ doubleQuotes s ++ "\"") =
        (⟨'"' :: (escQuote s.data ++ ['"'])⟩ : String) := rfl
    rw [hre, unescapeCsv_wrapped, unescQuote_escQuote]
  · have hq' : needsQuoting s = false := by
      cases h : needsQuoting s
      · rfl
      · exact absurd h hq
    have hnc : strContains s '"' = false := by
      cases h : strContains s '"'
      · rfl
      · exfalso
        apply hq
        simp [needsQuoting, h]
    have hcondneg : ¬(2 ≤ s.data.length ∧ s.data.head? = some '"' ∧
        s.data.getLast? = some '"') := by
      rintro ⟨-, hhead, -⟩
      cases hd : s.data with
      | nil => rw [hd] at hhead; simp at hhead
      | cons c cs =>
        rw [hd] at hhead
        simp at hhead
        rw [strContains, hd] at hnc
        simp [hhead] at hnc
    rw [escapeCsv, hq']
    simp only [Bool.false_eq_true, if_false]
    unfold unescapeCsv
    rw [if_neg hcondneg]

/-- C7: for every input sequence of records and either filter (team or
status), the output is a sublist of the input: original relative order
is preserved and no record is added or duplicated. -/
theorem filter_output_sublist (xs : List JSValue) (t : JSValue) :
    List.Sublist (filterByTeam (JSValue.arr xs) t) xs ∧
      List.Sublist (filterByTargetStatuses (JSValue.arr xs)) xs :=
  ⟨List.filter_sublist xs, List.filter_sublist xs⟩

/-- C8: for every non-array fetched payload the status filter returns
an empty result and the non-array warning fires without any exception;
consequently the serializer writes no output file and the modelled run
finishes with exit status 0. -/
theorem nonArray_payload_graceful (v : JSValue) (h : isArrayValue v = false) :
    filterByTargetStatuses v = [] ∧
      runStatusReport v = ⟨true, none, 0⟩ := by
  have hfilter : filterByTargetStatuses v = [] := by
    cases v <;> first | rfl | simp [isArrayValue] at h
  refine ⟨hfilter, ?_⟩
  unfold runStatusReport
  rw [hfilter, h]
  rfl

/-- Witness for C8 at the concrete payload `{}` (a JSON object instead
of an array). -/
theorem nonArray_payload_graceful_witness :
    filterByTargetStatuses (JSValue.obj []) = [] ∧
      runStatusReport (JSValue.obj []) = ⟨true, none, 0⟩ :=
  nonArray_payload_graceful (JSValue.obj []) rfl

/-- C3: the status filter keeps a record iff the status resolved from
the five locations (`status`, `state`, `experiment_status`,
`metadata.status`, `metadata.state`) is truthy and its lowercased
string form is exactly `ready` or `wrap_up`; a record with no
resolvable status is dropped, and any other status value, including
`READY_SOON`, is excluded. -/
theorem filterByTargetStatuses_spec (e : JSValue) :
    (statusKeep e = true ↔
      truthy (resolveStatus e) = true ∧
        (lowerStr (jsToString (resolveStatus e)) = "ready" ∨
          lowerStr (jsToString (resolveStatus e)) = "wrap_up"))
    ∧ statusKeep (JSValue.obj [("status", JSValue.str "READY_SOON")]) = false
    ∧ (resolveStatus e = JSValue.undef → statusKeep e = false) := by
  refine ⟨?_, by decide, ?_⟩
  · unfold statusKeep
    cases ht : truthy (resolveStatus e)
    · simp [ht]
    · simp [ht, targetStatuses]
  · intro h
    simp [statusKeep, h, truthy]

/-- Witness for C3 at the concrete record `{}`, which has no resolvable
status and is dropped. -/
theorem filterByTargetStatuses_spec_witness :
    statusKeep (JSValue.obj []) = false :=
  (filterByTargetStatuses_spec (JSValue.obj [])).2.2 rfl

/-- C4: the team filter keeps a record iff the integer coercion of the
team identifier resolved from the six locations (`team_id`, `teamId`,
`owner_team_id`, `ownerTeamId`, `metadata.team_id`, `metadata.teamId`)
equals the integer coercion of the configured target; coercing an
absent identifier yields the `NaN` sentinel (`none`), which never
matches, so such records are dropped, and the filter is the standard
list filter, so each matching record is included once per occurrence in
input order. -/
theorem filterByTeam_spec (e t : JSValue) :
    (teamKeep e t = true ↔
      ∃ n : Int, jsParseInt (resolveTeamId e) = some n ∧ jsParseInt t = some n)
    ∧ (jsParseInt (resolveTeamId e) = none → teamKeep e t = false)
    ∧ jsParseInt JSValue.undef = none
    ∧ (∀ xs : List JSValue,
        filterByTeam (JSValue.arr xs) t = xs.filter (fun x => teamKeep x t)) := by
  refine ⟨?_, ?_, by decide, fun xs => rfl⟩
  · unfold teamKeep
    cases h1 : jsParseInt (resolveTeamId e) <;> cases h2 : jsParseInt t <;> simp
    exact eq_comm
  · intro h
    cases h2 : jsParseInt t <;> simp [teamKeep, h, h2]

/-- Witness for C4 at a concrete record whose `team_id` is the string
`"123"` matched against the target string `"123"`. -/
theorem filterByTeam_spec_witness :
    teamKeep (JSValue.obj [("team_id", JSValue.str "123")]) (JSValue.str "123") = true :=
  (filterByTeam_spec (JSValue.obj [("team_id", JSValue.str "123")])
      (JSValue.str "123")).1.mpr ⟨123, by decide, by decide⟩

/-- C2: owner resolution picks the owner source by the four-field
fallback chain (here formalised as the code implements it, with
"non-empty" read as JavaScript truthiness); an object source yields the
name chain `name`/`full_name`/`displayName` and the email chain
`email`/`email_address`; a string source containing `@` yields the
whole string as email and the part before the first `@` as name; a
string without `@` yields the whole string as name and an empty email;
and when all four owner fields are absent both results are empty. -/
theorem owner_resolution_cases (e : JSValue) :
    (∀ fs, statusOwnerSource e = JSValue.obj fs →
      statusOwnerPair e =
        (jsToString (statusOwnerNameChain (JSValue.obj fs)),
         jsToString (statusOwnerEmailChain (JSValue.obj fs))))
    ∧ (∀ s, statusOwnerSource e = JSValue.str s → strContains s '@' = true →
        statusOwnerPair e = (beforeAt s, s))
    ∧ (∀ s, statusOwnerSource e = JSValue.str s → strContains s '@' = false →
        statusOwnerPair e = (s, ""))
    ∧ (getField e "owner" = JSValue.undef → getField e "created_by" = JSValue.undef →
        getField e "createdBy" = JSValue.undef → getField e "author" = JSValue.undef →
        statusOwnerPair e = ("", "")) := by
  refine ⟨?_, ?_, ?_, ?_⟩
  · intro fs h
    unfold statusOwnerPair
    rw [h]
    rfl
  · intro s h hat
    unfold statusOwnerPair
    rw [h]
    simp [statusOwnerBranch, isObjectType, hat]
  · intro s h hat
    unfold statusOwnerPair
    rw [h]
    simp [statusOwnerBranch, isObjectType, hat]
  · intro h1 h2 h3 h4
    have hsrc : statusOwnerSource e = JSValue.obj [] := by
      simp [statusOwnerSource, h1, h2, h3, h4, jsOr, truthy]
    unfold statusOwnerPair
    rw [hsrc]
    decide

/-- Witness for C2 at the concrete record `{owner: "bob@x.com"}`. -/
theorem owner_resolution_cases_witness :
    statusOwnerPair (JSValue.obj [("owner", JSValue.str "bob@x.com")]) =
      ("bob", "bob@x.com") :=
  (owner_resolution_cases (JSValue.obj [("owner", JSValue.str "bob@x.com")])).2.1
    "bob@x.com" rfl (by decide)

/-- C5 counterexample: the claim that every multi-field extraction
returns the first defined, non-null candidate fails on the code: for
the record `{team_id: 0, teamId: 5}` the first defined non-null
candidate is `0`, yet the team-id chain skips the falsy `0` and
returns `5`. -/
theorem ordered_lookup_counterexample :
    specFirstDefined (teamIdCandidates
        (JSValue.obj [("team_id", JSValue.num 0), ("teamId", JSValue.num 5)])) = JSValue.num 0
    ∧ resolveTeamId
        (JSValue.obj [("team_id", JSValue.num 0), ("teamId", JSValue.num 5)]) = JSValue.num 5
    ∧ (JSValue.num 0 = JSValue.num 5 → False) := by
  refine ⟨rfl, rfl, ?_⟩
  intro h
  injection h with h'
  exact absurd h' (by decide)

/-- C5 amended: every multi-field ordered-lookup extraction in the
pipeline (team id over six candidates, status over five, owner over
four plus the `{}` default, and the owner name and email sub-chains)
returns the first truthy candidate value, falling through to the final
candidate of its chain when every candidate is falsy; defined but falsy
values such as `0` or the empty string are skipped. -/
theorem ordered_lookup_amended (e o : JSValue) :
    resolveTeamId e = firstTruthyD (teamIdCandidates e)
    ∧ resolveStatus e = firstTruthyD (statusCandidates e)
    ∧ statusOwnerSource e = firstTruthyD (ownerCandidates e)
    ∧ statusOwnerNameChain o =
        firstTruthyD [getField o "name", getField o "full_name",
          getField o "displayName", JSValue.str ""]
    ∧ statusOwnerEmailChain o =
        firstTruthyD [getField o "email", getField o "email_address", JSValue.str ""] := by
  refine ⟨?_, ?_, ?_, ?_, ?_⟩ <;>
    simp only [resolveTeamId, teamIdCandidates, resolveStatus, statusCandidates,
      statusOwnerSource, ownerCandidates, statusOwnerNameChain, statusOwnerEmailChain,
      firstTruthyD, jsOr]

/-- C6 counterexample: the invariant "`experimentUrl` is empty iff
`experimentId` is empty" fails on the code for the record
`{id: []}`: the empty array is truthy, so the url becomes the bare
prefix, while `String([])` is the empty string. -/
theorem url_empty_iff_id_empty_counterexample :
    ¬(rowExperimentUrl (JSValue.obj [("id", JSValue.arr [])]) = "" ↔
      rowExperimentId (JSValue.obj [("id", JSValue.arr [])]) = "") := by decide

/-- C6 amended: the derived url is empty iff the raw resolved
experiment id is the empty string (equivalently, is falsy: the id chain
can only produce a truthy value or the `''` default); whenever the
resolved id is truthy, the url is exactly the prefix
`https://eppo.cloud/experiments/` followed by the stringified id.  For
string-valued ids this coincides with the original claim; the only
divergence is a truthy non-string id whose stringification is empty,
such as an empty array. -/
theorem url_empty_iff_id_falsy (e : JSValue) :
    (rowExperimentUrl e = "" ↔ resolveExperimentId e = JSValue.str "")
    ∧ (truthy (resolveExperimentId e) = true →
        rowExperimentUrl e = "https://eppo.cloud/experiments/" ++ rowExperimentId e) := by
  constructor
  · constructor
    · intro h
      by_cases ht : truthy (resolveExperimentId e) = true
      · exfalso
        rw [rowExperimentUrl, if_pos ht] at h
        have hlen := congrArg String.length h
        rw [String.length_append] at hlen
        have e1 : ("https://eppo.cloud/experiments/" : String).length = 31 := by decide
        have e2 : ("" : String).length = 0 := rfl
        rw [e1, e2] at hlen
        omega
      · have hf : truthy (resolveExperimentId e) = false := by
          cases hh : truthy (resolveExperimentId e)
          · rfl
          · exact absurd hh ht
        cases h1 : truthy (getField e "id") <;> cases h2 : truthy (getField e "experiment_id") <;>
          simp [resolveExperimentId, jsOr, h1, h2] at hf ⊢
    · intro h
      have ht : truthy (resolveExperimentId e) = false := by rw [h]; rfl
      rw [rowExperimentUrl, if_neg]
      simp [ht]
  · intro ht
    rw [rowExperimentUrl, if_pos ht]
    rfl

/-- Witness for C6 (amended) at the concrete record
`{id: "exp_456"}`. -/
theorem url_empty_iff_id_falsy_witness :
    rowExperimentUrl (JSValue.obj [("id", JSValue.str "exp_456")]) =
      "https://eppo.cloud/experiments/" ++
        rowExperimentId (JSValue.obj [("id", JSValue.str "exp_456")]) :=
  (url_empty_iff_id_falsy (JSValue.obj [("id", JSValue.str "exp_456")])).2 (by decide)

/-- C9: the owner-resolution logic of the team-report row loop, the
status-report row loop, and the unique-owner-email summary computation
of each report agree extensionally: the two row loops produce the same
name and email for every record, the two summary blocks produce the
same email value, and the summary email stringifies to exactly the row
email. -/
theorem owner_resolution_shared (e : JSValue) :
    teamOwnerPair e = statusOwnerPair e
    ∧ teamSummaryEmail e = statusSummaryEmail e
    ∧ jsToString (statusSummaryEmail e) = (statusOwnerPair e).2 := by
  refine ⟨rfl, rfl, ?_⟩
  unfold statusSummaryEmail statusOwnerPair statusOwnerBranch statusOwnerSource
    statusOwnerEmailChain
  generalize (jsOr (getField e "owner")
      (jsOr (getField e "created_by")
        (jsOr (getField e "createdBy")
          (jsOr (getField e "author") (JSValue.obj []))))) = o
  cases o <;> simp [isObjectType] <;> first
    | rfl
    | (split <;> rfl)
